import Mathlib

/-!
Verification development for the ai-mcp-hub agent runtime.

This file gives a shallow embedding, in Lean, of the core of the
TypeScript sources:

* `src/src/agent/reasoning.ts` — the bounded reasoning loop (`ReasoningAgent.run`)
  and its routing of tool calls (built-in registry vs external MCP manager);
* `src/src/agent/planner.ts` — the tool registry (`ToolRegistry.executeTool`,
  `dispatch`) with the permission gate and the SQL placeholder guard, and the
  planner sub-agent (`createPlan`, `fallbackPlan`);
* `src/src/agent/reviewer.ts` — the reviewer sub-agent (`reviewExecution`,
  `fallbackReview`);
* `src/src/agent/orchestrator.ts` — the orchestrator (`OrchestratorAgent.run`),
  in particular its `agentLogs` construction;
* `src/src/mcp/manager.ts` — the external server manager
  (`MCPServerManager.executeTool` name parsing);
* the session memory (`SessionMemory`, `createSession`) and the built-in tool
  catalog (`toolDefinitions`).

Modelling conventions:

* Timestamps (`Date.now()`, `new Date()`) are naturals (milliseconds); the
  clock values are passed in as parameters.
* The LLM (`ollamaChat`) is a parameter: either a transport error or an
  assistant message with content and a list of requested tool calls.
* Backing connectors (MySQL, Redis, git, HTTP, ...) are a parameter
  `env : String → Except String String`; each dispatch case records which
  backing call it performs in a log (second component), so "the connector was
  not invoked" is the statement that the log is empty.
* JSON values produced by `JSON.parse` are modelled by the inductive `JSON`;
  JSON numbers are modelled as integers (the claims under study only concern
  integral scores and clamping).  JavaScript member access on `null` throws,
  on other non-objects yields `undefined`: `jsGet` returns
  `Except Unit (Option JSON)` with `.error` for a throw and `.ok none` for
  `undefined`.  `x ?? d` is `jsCoalesce`, `Boolean(x)` is `jsTruthy`,
  `Number(x)` is `jsToNumber` (with `none` playing the role of `NaN`;
  string-to-number conversion is modelled for integral strings, and the
  array/object coercions are modelled as `NaN`).
* Strings are handled through their character lists (`String.data`); the JS
  string primitives used by the sources (`startsWith`, `indexOf('__')`,
  `slice`, regular-expression tests) are re-implemented on `List Char`.
* `uuid` fields and the long tool `description` texts are omitted: no claim
  under study depends on them.
-/

/-! ## Roles and tool calls (`src/src/types.ts`) -/

inductive Role
  | admin
  | operator
  | dev
  | readonly
deriving DecidableEq, BEq, Repr

def roleStr : Role → String
  | .admin => "admin"
  | .operator => "operator"
  | .dev => "dev"
  | .readonly => "readonly"

inductive ToolStatus
  | pending
  | running
  | success
  | error
  | skipped
deriving DecidableEq, BEq, Repr

/-- Tool arguments: the sources treat them as a string-keyed record; the
values the claims depend on are all strings. -/
abbrev Args := List (String × String)

/-- One executed tool call (the `ToolCall` record of `src/src/types.ts`;
the `id : uuid` field is omitted). -/
structure ToolCall where
  toolName : String
  args : Args
  status : ToolStatus
  result : Option String
  error : Option String
  startedAt : Nat
  finishedAt : Option Nat
  durationMs : Option Nat
deriving DecidableEq, Repr

/-! ## A model of the JSON values returned by `JSON.parse` -/

inductive JSON
  | null
  | bool (b : Bool)
  | num (n : Int)
  | str (s : String)
  | arr (elems : List JSON)
  | obj (fields : List (String × JSON))

/-- JavaScript member access `v[k]`: throws (`.error`) when `v` is `null`,
yields the field when `v` is an object with that field, and `undefined`
(`.ok none`) otherwise. -/
def jsGet : JSON → String → Except Unit (Option JSON)
  | .null, _ => .error ()
  | .obj fields, k => .ok ((fields.find? (fun f => f.1 == k)).map (·.2))
  | _, _ => .ok none

/-- JavaScript `x ?? d`: `d` when `x` is `undefined` or `null`. -/
def jsCoalesce (v : Option JSON) (d : JSON) : JSON :=
  match v with
  | none => d
  | some .null => d
  | some x => x

/-- JavaScript `Boolean(x)`. -/
def jsTruthy : Option JSON → Bool
  | none => false
  | some .null => false
  | some (.bool b) => b
  | some (.num n) => n != 0
  | some (.str s) => s != ""
  | some (.arr _) => true
  | some (.obj _) => true

def isDigitChar (c : Char) : Bool := '0' ≤ c && c ≤ '9'

def isWsChar (c : Char) : Bool := c = ' ' || c = '\t' || c = '\n' || c = '\r'

def parseDigitsAux (acc : Nat) : List Char → Option Nat
  | [] => some acc
  | c :: rest =>
    if isDigitChar c then parseDigitsAux (acc * 10 + (c.toNat - 48)) rest else none

/-- JavaScript `Number(s)` for a string, restricted to integral notation:
an empty or all-whitespace string is `0`, an optionally signed digit string
is its value, anything else is `NaN` (`none`). -/
def strToNumber (s : String) : Option Int :=
  let t := ((s.data.dropWhile isWsChar).reverse.dropWhile isWsChar).reverse
  match t with
  | [] => some 0
  | c :: rest =>
    if c = '-' then
      match rest with
      | [] => none
      | _ => (parseDigitsAux 0 rest).map (fun n => -(n : Int))
    else if c = '+' then
      match rest with
      | [] => none
      | _ => (parseDigitsAux 0 rest).map (fun n => (n : Int))
    else (parseDigitsAux 0 t).map (fun n => (n : Int))

/-- JavaScript `Number(x)`; `none` models `NaN`.  (The exotic
array/object-to-primitive coercions are modelled as `NaN`.) -/
def jsToNumber : Option JSON → Option Int
  | none => none
  | some .null => some 0
  | some (.bool b) => some (if b then 1 else 0)
  | some (.num n) => some n
  | some (.str s) => strToNumber s
  | some (.arr _) => none
  | some (.obj _) => none

/-- JavaScript `x || 5` applied to `Number(score)`: `NaN` and `0` are falsy. -/
def numOrFive : Option Int → Int
  | none => 5
  | some n => if n = 0 then 5 else n

mutual

/-- JavaScript string interpolation of a value (template literals). -/
def jsShow : JSON → String
  | .null => "null"
  | .bool b => if b then "true" else "false"
  | .num n => toString n
  | .str s => s
  | .arr l => jsShowSeq l
  | .obj _ => "[object Object]"

def jsShowSeq : List JSON → String
  | [] => ""
  | [v] => jsShow v
  | v :: rest => jsShow v ++ "," ++ jsShowSeq rest

end

/-! ## The built-in tool catalog (`src/src/tools/definitions.ts`)

Each entry keeps the `name`, `permissionRequired` and `safeForProduction`
fields of the source (descriptions and input schemas are omitted). -/

structure MCPTool where
  name : String
  permissionRequired : List Role
  safeForProduction : Bool
deriving DecidableEq, Repr

def dbQueryDef : MCPTool :=
  { name := "db_query", permissionRequired := [.admin, .operator, .dev], safeForProduction := true }

def dbSchemaDef : MCPTool :=
  { name := "db_schema", permissionRequired := [.admin, .operator, .dev, .readonly], safeForProduction := true }

def dbMigrateDef : MCPTool :=
  { name := "db_migrate", permissionRequired := [.admin], safeForProduction := false }

def apiCallDef : MCPTool :=
  { name := "api_call", permissionRequired := [.admin, .operator, .dev], safeForProduction := true }

def fsReadDef : MCPTool :=
  { name := "fs_read", permissionRequired := [.admin, .operator, .dev, .readonly], safeForProduction := true }

def fsWriteDef : MCPTool :=
  { name := "fs_write", permissionRequired := [.admin, .operator, .dev], safeForProduction := true }

def fsListDef : MCPTool :=
  { name := "fs_list", permissionRequired := [.admin, .operator, .dev, .readonly], safeForProduction := true }

def fsScaffoldDef : MCPTool :=
  { name := "fs_scaffold", permissionRequired := [.admin, .dev], safeForProduction := false }

def gitCloneDef : MCPTool :=
  { name := "git_clone", permissionRequired := [.admin, .dev], safeForProduction := false }

def gitCommitDef : MCPTool :=
  { name := "git_commit", permissionRequired := [.admin, .dev], safeForProduction := false }

def gitDiffDef : MCPTool :=
  { name := "git_diff", permissionRequired := [.admin, .operator, .dev, .readonly], safeForProduction := true }

def gitBranchDef : MCPTool :=
  { name := "git_branch", permissionRequired := [.admin, .dev], safeForProduction := false }

def gitPrDef : MCPTool :=
  { name := "git_pr", permissionRequired := [.admin, .dev], safeForProduction := false }

def gitLogDef : MCPTool :=
  { name := "git_log", permissionRequired := [.admin, .operator, .dev, .readonly], safeForProduction := true }

def gitStatusDef : MCPTool :=
  { name := "git_status", permissionRequired := [.admin, .operator, .dev, .readonly], safeForProduction := true }

def redisGetDef : MCPTool :=
  { name := "redis_get", permissionRequired := [.admin, .operator, .dev, .readonly], safeForProduction := true }

def redisSetDef : MCPTool :=
  { name := "redis_set", permissionRequired := [.admin, .operator, .dev], safeForProduction := true }

def redisQueueDef : MCPTool :=
  { name := "redis_queue", permissionRequired := [.admin, .operator, .dev], safeForProduction := true }

def redisPubsubDef : MCPTool :=
  { name := "redis_pubsub", permissionRequired := [.admin, .operator], safeForProduction := true }

def webSearchDef : MCPTool :=
  { name := "web_search", permissionRequired := [.admin, .operator, .dev, .readonly], safeForProduction := true }

def webFetchJsonDef : MCPTool :=
  { name := "web_fetch_json", permissionRequired := [.admin, .operator, .dev, .readonly], safeForProduction := true }

def toolDefinitions : List MCPTool :=
  [dbQueryDef, dbSchemaDef, dbMigrateDef, apiCallDef,
   fsReadDef, fsWriteDef, fsListDef, fsScaffoldDef,
   gitCloneDef, gitCommitDef, gitDiffDef, gitBranchDef, gitPrDef, gitLogDef, gitStatusDef,
   redisGetDef, redisSetDef, redisQueueDef, redisPubsubDef,
   webSearchDef, webFetchJsonDef]

def getAllToolNames : List String := toolDefinitions.map (·.name)

/-- `ToolRegistry.canUseTool` (`src/src/agent/planner.ts`, registry part):
false when the tool is not in the catalog, otherwise membership of the
caller role in `permissionRequired`. -/
def canUseTool (role : Role) (toolName : String) : Bool :=
  match toolDefinitions.find? (fun t => t.name == toolName) with
  | none => false
  | some t => t.permissionRequired.contains role

/-! ## The SQL placeholder guard -/

def obrace : Char := Char.ofNat 123

def cbrace : Char := Char.ofNat 125

def isAsciiLetter (c : Char) : Bool := ('a' ≤ c && c ≤ 'z') || ('A' ≤ c && c ≤ 'Z')

/-- The character class `[a-zA-Z_]` of the guard regex in `dispatch`. -/
def isGuardNameChar (c : Char) : Bool := isAsciiLetter c || c = '_'

/-- After an opening brace and one name character: accept a closing brace,
or another name character followed recursively. -/
def guardTail : List Char → Bool
  | [] => false
  | c :: rest => if c = cbrace then true else (isGuardNameChar c && guardTail rest)

/-- The test of the regex `/\x7b[a-zA-Z_]+\x7d/` used by the `db_query`
case of `ToolRegistry.dispatch`: does the string contain an opening brace,
one or more `[a-zA-Z_]` characters, then a closing brace? -/
def hasPlaceholder : List Char → Bool
  | [] => false
  | c :: rest =>
    (c = obrace &&
      (match rest with
       | [] => false
       | d :: rest2 => isGuardNameChar d && guardTail rest2))
    || hasPlaceholder rest

/-- The character class `[A-Za-z0-9_]` of the pattern quoted by the spec. -/
def isSpecNameCont (c : Char) : Bool := isGuardNameChar c || isDigitChar c

def specTail : List Char → Bool
  | [] => false
  | c :: rest => if c = cbrace then true else (isSpecNameCont c && specTail rest)

/-- Modelled from the spec: the placeholder pattern the spec quotes for the
SQL guard, an opening brace, `[A-Za-z_]`, then `[A-Za-z0-9_]*`, then a
closing brace.  This is the spec-side pattern, kept separate so it can be
compared with `hasPlaceholder`, the pattern the code actually tests. -/
def specPlaceholder : List Char → Bool
  | [] => false
  | c :: rest =>
    (c = obrace &&
      (match rest with
       | [] => false
       | d :: rest2 => isGuardNameChar d && specTail rest2))
    || specPlaceholder rest

/-- Does `l` start with `p`?  (JS `String.prototype.startsWith`.) -/
def startsWithL : List Char → List Char → Bool
  | _, [] => true
  | [], _ :: _ => false
  | c :: rest, p :: ps => c == p && startsWithL rest ps

/-- Does `l` contain `needle` as a contiguous substring? -/
def hasSubstr : List Char → List Char → Bool
  | [], needle => needle.isEmpty
  | c :: rest, needle => startsWithL (c :: rest) needle || hasSubstr rest needle

/-! ## The tool registry (`ToolRegistry` of `src/src/agent/planner.ts`) -/

/-- The error message thrown by the `db_query` placeholder guard. -/
def sqlGuardMsg : String :=
  "SQL contains placeholder like \x7bgold\x7d. Put the REAL value directly, e.g. VALUES (2650.50)"

/-- `ToolRegistry.dispatch`: the switch over built-in tool names.  `env`
stands for the backing connectors and the external MCP manager; the second
component logs, in order, every backing call performed.  A `.error` result
models a thrown exception. -/
def dispatch (env : String → Except String String) (toolName : String) (args : Args) :
    Except String String × List String :=
  if toolName = "db_query" then
    let sql := (args.lookup "sql").getD "undefined"
    if hasPlaceholder sql.data then (.error sqlGuardMsg, [])
    else (env "mcp__mysql__query", ["mcp__mysql__query"])
  else if toolName = "db_schema" then (env "mcp__mysql__list_tables", ["mcp__mysql__list_tables"])
  else if toolName = "db_migrate" then (env "mcp__mysql__query", ["mcp__mysql__query"])
  else if toolName = "api_call" then (env "callApi", ["callApi"])
  else if toolName = "fs_read" then (env "mcp__filesystem__read_file", ["mcp__filesystem__read_file"])
  else if toolName = "fs_write" then (env "mcp__filesystem__write_file", ["mcp__filesystem__write_file"])
  else if toolName = "fs_list" then (env "mcp__filesystem__list_directory", ["mcp__filesystem__list_directory"])
  else if toolName = "fs_scaffold" then (env "scaffoldProject", ["scaffoldProject"])
  else if toolName = "git_clone" then (env "cloneRepo", ["cloneRepo"])
  else if toolName = "git_commit" then (env "commitChanges", ["commitChanges"])
  else if toolName = "git_diff" then
    match env "getDiff" with
    | .error e => (.error e, ["getDiff"])
    | .ok d =>
      if args.lookup "analyzeBreaking" = some "true" then
        match env "analyzeBreakingChanges" with
        | .error e => (.error e, ["getDiff", "analyzeBreakingChanges"])
        | .ok b => (.ok (d ++ b), ["getDiff", "analyzeBreakingChanges"])
      else (.ok d, ["getDiff"])
  else if toolName = "git_branch" then
    if args.lookup "action" = some "create" then (env "createBranch", ["createBranch"])
    else (env "listBranches", ["listBranches"])
  else if toolName = "git_pr" then (env "pushBranch", ["pushBranch"])
  else if toolName = "git_log" then (env "getLog", ["getLog"])
  else if toolName = "git_status" then (env "getStatus", ["getStatus"])
  else if toolName = "redis_get" then (env "mcp__redis__get", ["mcp__redis__get"])
  else if toolName = "redis_set" then (env "mcp__redis__set", ["mcp__redis__set"])
  else if toolName = "redis_queue" then
    let action := (args.lookup "action").getD "undefined"
    if action = "push" then (env "mcp__redis__rpush", ["mcp__redis__rpush"])
    else if action = "pop" then (env "mcp__redis__lpop", ["mcp__redis__lpop"])
    else if action = "status" then (env "mcp__redis__llen", ["mcp__redis__llen"])
    else if action = "peek" then (env "mcp__redis__lrange", ["mcp__redis__lrange"])
    else (.error ("Unknown queue action: " ++ action), [])
  else if toolName = "redis_pubsub" then (env "mcp__redis__publish", ["mcp__redis__publish"])
  else if toolName = "web_search" then (env "webSearch", ["webSearch"])
  else if toolName = "web_scrape" then (env "webScrape", ["webScrape"])
  else if toolName = "web_fetch_json" then (env "fetchJson", ["fetchJson"])
  else (.error ("Unknown tool: " ++ toolName), [])

/-- `ToolRegistry.executeTool`: permission gate, then dispatch; the returned
`ToolCall` records the outcome.  `now` is the clock at entry and `elapsed`
the (abstract) time the dispatch takes. -/
def executeTool (env : String → Except String String) (role : Role) (toolName : String)
    (args : Args) (now elapsed : Nat) : ToolCall × List String :=
  if canUseTool role toolName then
    match dispatch env toolName args with
    | (.ok r, log) =>
      ({ toolName := toolName, args := args, status := .success, result := some r,
         error := none, startedAt := now, finishedAt := some (now + elapsed),
         durationMs := some elapsed }, log)
    | (.error e, log) =>
      ({ toolName := toolName, args := args, status := .error, result := none,
         error := some e, startedAt := now, finishedAt := some (now + elapsed),
         durationMs := some elapsed }, log)
  else
    ({ toolName := toolName, args := args, status := .error, result := none,
       error := some ("Permission denied: role \x27" ++ roleStr role ++
                      "\x27 cannot use tool \x27" ++ toolName ++ "\x27"),
       startedAt := now, finishedAt := some now, durationMs := some 0 }, [])

/-! ## The external server manager (`src/src/mcp/manager.ts`) -/

/-- The index of the first occurrence of `"__"` (JS `indexOf('__')`). -/
def idxDunder : List Char → Option Nat
  | [] => none
  | c :: rest =>
    if c = '_' ∧ rest.head? = some '_' then some 0
    else (idxDunder rest).map (· + 1)

/-- Does the list contain `"__"`? -/
def hasDunderL : List Char → Bool
  | [] => false
  | c :: rest => (c == '_' && rest.head? == some '_') || hasDunderL rest

/-- The name parsing of `MCPServerManager.executeTool`: drop the five
characters of `mcp__`, find the first `__`, split there. -/
def mcpParse (fullName : String) : Option (String × String) :=
  let rest := fullName.data.drop 5
  match idxDunder rest with
  | none => none
  | some i => some (String.mk (rest.take i), String.mk (rest.drop (i + 2)))

/-- The manager's client map: server id to connection state
(`clients.get(serverId)` and `client.isConnected()`). -/
def lookupClient (clients : List (String × Bool)) (serverId : String) : Option Bool :=
  (clients.find? (fun c => c.1 == serverId)).map (·.2)

/-- `MCPServerManager.executeTool`: parse the full name, look the server up,
and call the tool on its client; `.ok (serverId, toolName)` stands for the
delegated `client.callTool(toolName, args)`. -/
def mcpExecute (clients : List (String × Bool)) (fullName : String) :
    Except String (String × String) :=
  match mcpParse fullName with
  | none => .error ("Invalid MCP tool name: " ++ fullName)
  | some (serverId, toolName) =>
    match lookupClient clients serverId with
    | some true => .ok (serverId, toolName)
    | _ => .error ("MCP server \x27" ++ serverId ++ "\x27 is not connected")

/-- The federated tool name `mcp__<serverId>__<toolName>`. -/
def mcpFullName (serverId toolName : String) : String :=
  "mcp__" ++ serverId ++ "__" ++ toolName

/-- The routing test of the reasoning loop: `toolName.startsWith('mcp__')`. -/
def routeIsMcp (name : String) : Bool := startsWithL name.data "mcp__".data

/-! ## The reasoning loop (`ReasoningAgent.run`, `src/src/agent/reasoning.ts`) -/

/-- One tool-call request emitted by the model. -/
structure ToolCallRequest where
  name : String
  args : Args
deriving DecidableEq, Repr

/-- One `ollamaChat` outcome: a thrown transport/server error, or an
assistant message with content and requested tool calls. -/
inductive LLMResult
  | err (msg : String)
  | ok (content : String) (toolCalls : List ToolCallRequest)

def hasTools : LLMResult → Bool
  | .err _ => false
  | .ok _ reqs => !reqs.isEmpty

def numTools : LLMResult → Nat
  | .err _ => 0
  | .ok _ reqs => reqs.length

/-- Per-request routing inside the loop: names starting with `mcp__` go to
`runMcpTool` (the manager), the rest to `registry.executeTool`. -/
def execRequest (mcpEx regEx : ToolCallRequest → ToolCall) (r : ToolCallRequest) : ToolCall :=
  if routeIsMcp r.name then mcpEx r else regEx r

structure LoopResult where
  toolCalls : List ToolCall
  finalResponse : String
  roundTrips : Nat

/-- The `while (iteration < maxIterations)` loop body, with the remaining
iteration budget as fuel.  An LLM error sets `AI Error: <msg>` and breaks;
a tool-less assistant turn sets the content and breaks; otherwise every
requested tool call is executed in order and the loop repeats.  (The
source's trailing `done_reason` check is unreachable: it requires an empty
`tool_calls`, which already broke above.) -/
def loopAux (llm : Nat → LLMResult) (mcpEx regEx : ToolCallRequest → ToolCall) :
    Nat → Nat → LoopResult
  | _, 0 => ⟨[], "", 0⟩
  | iter, fuel + 1 =>
    match llm iter with
    | .err m => ⟨[], "AI Error: " ++ m, 1⟩
    | .ok content [] => ⟨[], content, 1⟩
    | .ok _ (r :: rs) =>
      let calls := (r :: rs).map (execRequest mcpEx regEx)
      let rest := loopAux llm mcpEx regEx (iter + 1) fuel
      ⟨calls ++ rest.toolCalls, rest.finalResponse, rest.roundTrips + 1⟩

/-- The fallback final response when the loop ends with a falsy
`finalResponse` (iteration cap exhausted, or an empty assistant content). -/
def completedMsg (k : Nat) : String :=
  "Completed " ++ toString k ++ " tool operations. Check the execution timeline for details."

/-- `ReasoningAgent.run`, reduced to the data the claims concern: the
executed tool calls, the final response, and the number of LLM round
trips. -/
def agentRun (llm : Nat → LLMResult) (mcpEx regEx : ToolCallRequest → ToolCall)
    (maxIterations : Nat) : LoopResult :=
  let res := loopAux llm mcpEx regEx 0 maxIterations
  { res with
    finalResponse :=
      if res.finalResponse = "" then completedMsg res.toolCalls.length
      else res.finalResponse }

/-- The default of the `maxIterations` option of `ReasoningAgent.run`. -/
def defaultMaxIterations : Nat := 6

/-! ## Session memory (`src/src/agent/memory.ts`) -/

structure AgentMessage where
  role : String
  content : String
  toolCalls : Option (List ToolCall)
  timestamp : Nat
deriving DecidableEq, Repr

structure SessionMemory where
  sessionId : String
  userId : String
  role : Role
  messages : List AgentMessage
  createdAt : Nat
  updatedAt : Nat
deriving DecidableEq, Repr

/-- `createSession`: fresh session, `createdAt` and `updatedAt` both set to
the current clock. -/
def createSession (sessionId userId : String) (role : Role) (now : Nat) : SessionMemory :=
  { sessionId := sessionId, userId := userId, role := role, messages := [],
    createdAt := now, updatedAt := now }

/-- The inputs of one `ReasoningAgent.run` call: the synthetic LLM, the two
executors, the iteration cap, the user prompt, and the clock at the start
(`tStart`, when the user message is pushed) and at the end (`tEnd`, when the
assistant message is pushed and `updatedAt` is set). -/
structure RunSpec where
  llm : Nat → LLMResult
  mcpEx : ToolCallRequest → ToolCall
  regEx : ToolCallRequest → ToolCall
  maxIter : Nat
  prompt : String
  tStart : Nat
  tEnd : Nat

/-- The two session messages one `run` appends: the user prompt at the
start, the assistant final response (carrying the executed tool calls) at
the end. -/
def runPair (r : RunSpec) : List AgentMessage :=
  [{ role := "user", content := r.prompt, toolCalls := none, timestamp := r.tStart },
   { role := "assistant",
     content := (agentRun r.llm r.mcpEx r.regEx r.maxIter).finalResponse,
     toolCalls := some (agentRun r.llm r.mcpEx r.regEx r.maxIter).toolCalls,
     timestamp := r.tEnd }]

/-- The effect of one `ReasoningAgent.run` call on the session: push the
user message, run the loop, push the assistant message, set `updatedAt`. -/
def runOnSession (s : SessionMemory) (r : RunSpec) : SessionMemory :=
  { s with messages := s.messages ++ runPair r, updatedAt := r.tEnd }

/-- A sequence of `run` calls on the same session. -/
def runSeq (s : SessionMemory) : List RunSpec → SessionMemory
  | [] => s
  | r :: rs => runSeq (runOnSession s r) rs

/-- The successive values of `session.updatedAt` after each run. -/
def updTrace (s : SessionMemory) : List RunSpec → List Nat
  | [] => []
  | r :: rs => (runOnSession s r).updatedAt :: updTrace (runOnSession s r) rs

/-! ## The planner (`createPlan` / `fallbackPlan`, `src/src/agent/planner.ts`) -/

structure ExecutionStep where
  stepNumber : JSON
  description : JSON
  toolHint : Option String
  status : String

structure AgentPlan where
  goal : JSON
  complexity : JSON
  estimatedTools : List String
  steps : List ExecutionStep

/-- One step of the parsed plan:
`stepNumber ?? i+1`, `description ?? ''`, and the tool hint kept only when
it is a known tool name.  `none` models the TypeError thrown when the step
element is `null`. -/
def buildStep (names : List String) (i : Nat) (s : JSON) : Option ExecutionStep :=
  match jsGet s "stepNumber", jsGet s "description", jsGet s "toolHint" with
  | .ok sn, .ok desc, .ok th =>
    some { stepNumber := jsCoalesce sn (.num (Int.ofNat (i + 1))),
           description := jsCoalesce desc (.str ""),
           toolHint :=
             match th with
             | some (.str x) => if names.contains x then some x else none
             | _ => none,
           status := "pending" }
  | _, _, _ => none

def buildSteps (names : List String) (i : Nat) : List JSON → Option (List ExecutionStep)
  | [] => some []
  | s :: rest => do
    let st ← buildStep names i s
    let tail ← buildSteps names (i + 1) rest
    pure (st :: tail)

/-- The body of the `try` block of `createPlan` after `JSON.parse`
succeeded: `none` models a thrown TypeError (caught by the source, which
then falls back). -/
def planFromParsed (userPrompt : String) (names : List String) (parsed : JSON) :
    Option AgentPlan := do
  let stepsF ← (jsGet parsed "steps").toOption
  let stepsArr ←
    match jsCoalesce stepsF (.arr []) with
    | .arr l => some l
    | _ => none
  let steps ← buildSteps names 0 stepsArr
  let goalF ← (jsGet parsed "goal").toOption
  let compF ← (jsGet parsed "complexity").toOption
  let etF ← (jsGet parsed "estimatedTools").toOption
  let etArr ←
    match jsCoalesce etF (.arr []) with
    | .arr l => some l
    | _ => none
  pure { goal := jsCoalesce goalF (.str userPrompt),
         complexity := jsCoalesce compF (.str "simple"),
         estimatedTools :=
           etArr.filterMap (fun v =>
             match v with
             | .str x => if names.contains x then some x else none
             | _ => none),
         steps := steps }

/-- The deterministic fallback plan. -/
def fallbackPlan (userPrompt : String) : AgentPlan :=
  { goal := .str userPrompt,
    complexity := .str "simple",
    estimatedTools := [],
    steps := [{ stepNumber := .num 1,
                description := .str "Execute the user request directly",
                toolHint := none,
                status := "pending" }] }

/-- `createPlan`: the LLM call either throws (`.error`), or returns content
whose fence-stripped `JSON.parse` either throws (`.ok none`) or yields a
JSON value. -/
def createPlan (userPrompt : String) (names : List String)
    (llm : Except Unit (Option JSON)) : AgentPlan :=
  match llm with
  | .error _ => fallbackPlan userPrompt
  | .ok none => fallbackPlan userPrompt
  | .ok (some parsed) =>
    match planFromParsed userPrompt names parsed with
    | none => fallbackPlan userPrompt
    | some p => p

/-! ## The reviewer (`reviewExecution` / `fallbackReview`, `src/src/agent/reviewer.ts`) -/

structure ReviewResult where
  passed : Bool
  score : Int
  feedback : JSON
  issues : List JSON
  suggestions : List JSON

def errorCountOf (toolCalls : List ToolCall) : Nat :=
  (toolCalls.filter (fun c => c.status == .error)).length

def successCountOf (toolCalls : List ToolCall) : Nat :=
  (toolCalls.filter (fun c => c.status == .success)).length

/-- `fallbackReview`: the deterministic review computed from the timeline
when the reviewer LLM fails or its output cannot be used. -/
def fallbackReview (toolCalls : List ToolCall) : ReviewResult :=
  let errorCount := errorCountOf toolCalls
  let successCount := successCountOf toolCalls
  let passed : Bool := errorCount == 0 || decide (successCount > errorCount)
  let score : Int := if passed then (if errorCount == 0 then 8 else 6) else 4
  { passed := passed,
    score := score,
    feedback :=
      if passed then
        .str ("Execution completed with " ++ toString successCount ++ " successful tool calls.")
      else
        .str ("Execution had " ++ toString errorCount ++ " errors out of " ++
              toString toolCalls.length ++ " tool calls."),
    issues :=
      if errorCount > 0 then
        [.str (toString errorCount ++ " tool call(s) failed during execution")]
      else [],
    suggestions := [] }

/-- The body of the `try` block of `reviewExecution` after `JSON.parse`
succeeded; `none` models a thrown TypeError (only member access on `null`
throws here). -/
def reviewFromParsed (parsed : JSON) : Option ReviewResult :=
  match (jsGet parsed "passed").toOption, (jsGet parsed "score").toOption,
        (jsGet parsed "feedback").toOption, (jsGet parsed "issues").toOption,
        (jsGet parsed "suggestions").toOption with
  | some p, some sc, some fb, some iss, some sg =>
    some { passed := jsTruthy p,
           score := min 10 (max 0 (numOrFive (jsToNumber sc))),
           feedback := jsCoalesce fb (.str ""),
           issues := (match iss with | some (.arr l) => l | _ => []),
           suggestions := (match sg with | some (.arr l) => l | _ => []) }
  | _, _, _, _, _ => none

/-- `reviewExecution`: LLM failure or unusable output falls back to
`fallbackReview` on the timeline. -/
def reviewExecution (toolCalls : List ToolCall) (llm : Except Unit (Option JSON)) :
    ReviewResult :=
  match llm with
  | .error _ => fallbackReview toolCalls
  | .ok none => fallbackReview toolCalls
  | .ok (some parsed) =>
    match reviewFromParsed parsed with
    | none => fallbackReview toolCalls
    | some r => r

/-- The `score` field of the parsed reviewer output, read with JS member
access and converted with `Number` (for a non-`null` parsed value). -/
def parsedScoreNum (parsed : JSON) : Option Int :=
  jsToNumber (match jsGet parsed "score" with | .ok v => v | .error _ => none)

/-! ## The orchestrator (`OrchestratorAgent.run`, `src/src/agent/orchestrator.ts`) -/

structure AgentLog where
  agentType : String
  message : String
  timestamp : Nat
deriving DecidableEq, Repr

/-- The `agentLogs` array built at the end of `OrchestratorAgent.run`:
planner at `startTime`, executor at `startTime + 100` (a hardcoded offset),
reviewer at the completion clock `endTime` (`new Date()`). -/
def orchestratorLogs (plan : AgentPlan) (toolCallCount : Nat) (review : ReviewResult)
    (startTime endTime : Nat) : List AgentLog :=
  [{ agentType := "planner",
     message := "Created plan: \x22" ++ jsShow plan.goal ++ "\x22 (" ++
                toString plan.steps.length ++ " steps, complexity: " ++
                jsShow plan.complexity ++ ")",
     timestamp := startTime },
   { agentType := "executor",
     message := "Executed " ++ toString toolCallCount ++ " tool calls",
     timestamp := startTime + 100 },
   { agentType := "reviewer",
     message := "Review score: " ++ toString review.score ++ "/10 — " ++
                (if review.passed then "PASSED" else "FAILED") ++ ". " ++
                jsShow review.feedback,
     timestamp := endTime }]

structure MultiAgentTimeline where
  toolCalls : List ToolCall
  finalResponse : String
  totalDurationMs : Nat
  plan : AgentPlan
  review : ReviewResult
  agentLogs : List AgentLog

/-- `OrchestratorAgent.run`: plan, execute (with the default iteration
cap), review, and assemble the multi-agent timeline. -/
def orchestratorRun (planLlm : Except Unit (Option JSON)) (loopLlm : Nat → LLMResult)
    (mcpEx regEx : ToolCallRequest → ToolCall) (reviewLlm : Except Unit (Option JSON))
    (prompt : String) (startTime endTime : Nat) : MultiAgentTimeline :=
  let plan := createPlan prompt getAllToolNames planLlm
  let execution := agentRun loopLlm mcpEx regEx defaultMaxIterations
  let review := reviewExecution execution.toolCalls reviewLlm
  { toolCalls := execution.toolCalls,
    finalResponse := execution.finalResponse,
    totalDurationMs := endTime - startTime,
    plan := plan,
    review := review,
    agentLogs := orchestratorLogs plan execution.toolCalls.length review startTime endTime }

/-! ## Concrete inputs used by witnesses and counterexamples -/

/-- A connector environment in which every backing call succeeds. -/
def envOk : String → Except String String := fun _ => .ok "ok"

/-- A synthetic LLM that always requests exactly one tool call. -/
def llmOneTool : Nat → LLMResult := fun _ => .ok "" [⟨"db_schema", []⟩]

/-- A trivial executor marking every request successful. -/
def exStub : ToolCallRequest → ToolCall := fun r =>
  { toolName := r.name, args := r.args, status := .success, result := some "ok",
    error := none, startedAt := 0, finishedAt := some 0, durationMs := some 0 }

/-- A synthetic LLM whose first turn requests one tool call and whose
second turn answers without tools. -/
def llmTwoTurn : Nat → LLMResult := fun i =>
  if i = 0 then .ok "" [⟨"db_schema", []⟩] else .ok "done" []

/-- A minimal tool call with the given status. -/
def mkStatusCall (st : ToolStatus) : ToolCall :=
  { toolName := "t", args := [], status := st, result := none, error := none,
    startedAt := 0, finishedAt := none, durationMs := none }

/-- A timeline with one success and two errors. -/
def mixedTimeline : List ToolCall :=
  [mkStatusCall .success, mkStatusCall .error, mkStatusCall .error]

/-- A SQL text with the placeholder `{gold}` (letters only). -/
def sqlWithGold : String := "INSERT INTO gold (price) VALUES (\x7bgold\x7d)"

/-- A SQL text with the placeholder `{x1}` (a digit in the name). -/
def sqlWithDigit : String := "INSERT INTO gold (price) VALUES (\x7bx1\x7d)"

/-- A fresh session created at clock 5. -/
def sessionW : SessionMemory := createSession "sid" "uid" Role.operator 5

/-- One concrete run: the LLM fails at once, user message at clock 6,
assistant message at clock 7. -/
def runSpecW : RunSpec :=
  { llm := fun _ => .err "down", mcpEx := exStub, regEx := exStub,
    maxIter := 6, prompt := "hi", tStart := 6, tEnd := 7 }

/-! ## Helper lemmas -/

theorem fallbackReview_score_cases (toolCalls : List ToolCall) :
    (fallbackReview toolCalls).score = 8 ∨ (fallbackReview toolCalls).score = 6 ∨
    (fallbackReview toolCalls).score = 4 := by
  simp only [fallbackReview]
  split_ifs <;> simp

theorem reviewExecution_parsed_score (toolCalls : List ToolCall) (parsed : JSON)
    (h : parsed ≠ .null) :
    (reviewExecution toolCalls (.ok (some parsed))).score =
      min 10 (max 0 (numOrFive (parsedScoreNum parsed))) := by
  cases parsed
  case null => exact absurd rfl h
  all_goals
    simp [reviewExecution, reviewFromParsed, jsGet, parsedScoreNum, Except.toOption]

/-! ## Claim theorems -/

/-- Claim C8, counterexample: on the fallback path, a timeline with one
success and two errors yields score 4, while the claimed formula
(8 if no errors, else 6 if some successes, else 4) demands 6. -/
theorem claim_c8_counterexample :
    successCountOf mixedTimeline = 1 ∧ errorCountOf mixedTimeline = 2 ∧
    (reviewExecution mixedTimeline (.error ())).score = 4 ∧
    ¬((reviewExecution mixedTimeline (.error ())).score =
        if errorCountOf mixedTimeline = 0 then 8
        else if successCountOf mixedTimeline > 0 then 6 else 4) := by
  refine ⟨rfl, rfl, rfl, ?_⟩
  decide

/-- Claim C8, amended: whenever the reviewer takes its fallback path
(LLM failure or unusable output), the review satisfies
`passed = (errorCount == 0 or successCount > errorCount)` and
`score = 8` if `errorCount == 0`, else `6` if `successCount > errorCount`
(not merely `successCount > 0`), else `4`. -/
theorem claim_c8 (toolCalls : List ToolCall) :
    (∀ llm : Except Unit (Option JSON), llm = .error () ∨ llm = .ok none →
       reviewExecution toolCalls llm = fallbackReview toolCalls)
    ∧ ((fallbackReview toolCalls).passed = true ↔
        (errorCountOf toolCalls = 0 ∨ successCountOf toolCalls > errorCountOf toolCalls))
    ∧ (fallbackReview toolCalls).score =
        (if errorCountOf toolCalls = 0 then 8
         else if successCountOf toolCalls > errorCountOf toolCalls then 6 else 4) := by
  refine ⟨?_, ?_, ?_⟩
  · intro llm h
    rcases h with h | h <;> subst h <;> rfl
  · simp [fallbackReview]
  · by_cases h1 : errorCountOf toolCalls = 0 <;>
      by_cases h2 : successCountOf toolCalls > errorCountOf toolCalls <;>
      simp [fallbackReview, h1, h2]

/-- Claim C8, witness: the amended theorem applied to the concrete mixed
timeline on the fallback path. -/
theorem claim_c8_witness :
    reviewExecution mixedTimeline (.error ()) = fallbackReview mixedTimeline ∧
    (fallbackReview mixedTimeline).score =
      (if errorCountOf mixedTimeline = 0 then 8
       else if successCountOf mixedTimeline > errorCountOf mixedTimeline then 6 else 4) :=
  ⟨(claim_c8 mixedTimeline).1 (.error ()) (Or.inl rfl), (claim_c8 mixedTimeline).2.2⟩

/-- Claim C10: for every reviewer LLM output that parses as JSON, the
returned score lies in [0,10]; a parsed score whose `Number` conversion is
0 or NaN becomes 5 (the falsy default applies before clamping), a negative
numeric score is clamped to 0, and a score above 10 is clamped to 10 — so a
model-reported score of 0 is never returned as 0. -/
theorem claim_c10 (toolCalls : List ToolCall) (llm : Except Unit (Option JSON)) :
    (0 ≤ (reviewExecution toolCalls llm).score ∧ (reviewExecution toolCalls llm).score ≤ 10)
    ∧ (∀ parsed : JSON, parsed ≠ .null →
        ((parsedScoreNum parsed = some 0 ∨ parsedScoreNum parsed = none) →
           (reviewExecution toolCalls (.ok (some parsed))).score = 5)
        ∧ (∀ n : Int, parsedScoreNum parsed = some n → n < 0 →
             (reviewExecution toolCalls (.ok (some parsed))).score = 0)
        ∧ (∀ n : Int, parsedScoreNum parsed = some n → 10 < n →
             (reviewExecution toolCalls (.ok (some parsed))).score = 10)) := by
  constructor
  · have hfb : ∀ tc : List ToolCall, 0 ≤ (fallbackReview tc).score ∧ (fallbackReview tc).score ≤ 10 := by
      intro tc
      rcases fallbackReview_score_cases tc with h | h | h <;> rw [h] <;> omega
    match llm with
    | .error _ => exact hfb toolCalls
    | .ok none => exact hfb toolCalls
    | .ok (some parsed) =>
      show 0 ≤ (reviewExecution toolCalls (.ok (some parsed))).score ∧ _
      by_cases h : parsed = JSON.null
      · subst h
        exact hfb toolCalls
      · rw [reviewExecution_parsed_score toolCalls parsed h]
        constructor
        · exact le_min (by norm_num) (le_max_left 0 _)
        · exact min_le_left 10 _
  · intro parsed hne
    refine ⟨?_, ?_, ?_⟩
    · intro h
      rw [reviewExecution_parsed_score toolCalls parsed hne]
      rcases h with h | h <;> rw [h] <;> rfl
    · intro n hn hneg
      rw [reviewExecution_parsed_score toolCalls parsed hne, hn]
      have : numOrFive (some n) = n := by
        simp [numOrFive]
        omega
      rw [this]
      omega
    · intro n hn hgt
      rw [reviewExecution_parsed_score toolCalls parsed hne, hn]
      have : numOrFive (some n) = n := by
        simp [numOrFive]
        omega
      rw [this]
      omega

/-- Claim C10, witness: a parsed review reporting score -3 comes back
clamped to 0, and a parsed review reporting score 0 comes back as 5. -/
theorem claim_c10_witness :
    (reviewExecution [] (Except.ok (some (JSON.obj [("score", JSON.num (-3))])))).score = 0
    ∧ (reviewExecution [] (Except.ok (some (JSON.obj [("score", JSON.num 0)])))).score = 5 := by
  constructor
  · exact ((claim_c10 [] (Except.ok (some (JSON.obj [("score", JSON.num (-3))])))).2
      (JSON.obj [("score", JSON.num (-3))]) (by intro hh; cases hh)).2.1 (-3) rfl (by decide)
  · exact ((claim_c10 [] (Except.ok (some (JSON.obj [("score", JSON.num 0)])))).2
      (JSON.obj [("score", JSON.num 0)]) (by intro hh; cases hh)).1 (Or.inl rfl)

theorem agentRun_continues (mcpEx regEx : ToolCallRequest → ToolCall) (llm : Nat → LLMResult)
    (c c2 : String) (reqs : List ToolCallRequest) (n : Nat)
    (hreqs : reqs ≠ []) (hc2 : c2 ≠ "") (h0 : llm 0 = .ok c reqs) (h1 : llm 1 = .ok c2 [])
    (hn : 2 ≤ n) :
    (agentRun llm mcpEx regEx n).finalResponse = c2 := by
  obtain ⟨m, rfl⟩ : ∃ m, n = m + 2 := ⟨n - 2, by omega⟩
  rcases reqs with _ | ⟨r, rs⟩
  · exact absurd rfl hreqs
  · simp [agentRun, loopAux, h0, h1, hc2]

/-- Claim C7, counterexample: the valid JSON output `\x7b\x7d` is missing every
required field, yet `createPlan` does not return the one-step fallback plan:
it returns a plan with zero steps. -/
theorem claim_c7_counterexample :
    (createPlan "hi" [] (Except.ok (some (JSON.obj [])))).steps.length = 0
    ∧ (fallbackPlan "hi").steps.length = 1
    ∧ createPlan "hi" [] (Except.ok (some (JSON.obj []))) ≠ fallbackPlan "hi" := by
  refine ⟨rfl, rfl, ?_⟩
  intro h
  exact absurd (congrArg (fun p => p.steps.length) h) (by decide)

/-- Claim C7, amended: `createPlan` returns the deterministic one-step
fallback (goal = prompt, complexity simple, no estimated tools, one step)
when the LLM call fails or its output fails `JSON.parse` (and when building
from the parsed value throws, as on JSON `null`); but a valid JSON object
missing required fields is not replaced by the fallback: each missing field
gets its own default, so the empty object yields goal = prompt, complexity
simple, no estimated tools and an empty steps list. -/
theorem claim_c7 (userPrompt : String) (names : List String)
    (llm : Except Unit (Option JSON)) :
    ((llm = .error () ∨ llm = .ok none) → createPlan userPrompt names llm = fallbackPlan userPrompt)
    ∧ createPlan userPrompt names (.ok (some .null)) = fallbackPlan userPrompt
    ∧ (fallbackPlan userPrompt).goal = .str userPrompt
    ∧ (fallbackPlan userPrompt).complexity = .str "simple"
    ∧ (fallbackPlan userPrompt).estimatedTools = []
    ∧ (fallbackPlan userPrompt).steps.length = 1
    ∧ createPlan userPrompt names (.ok (some (.obj []))) =
        { goal := .str userPrompt, complexity := .str "simple",
          estimatedTools := [], steps := [] } := by
  refine ⟨?_, rfl, rfl, rfl, rfl, rfl, rfl⟩
  intro h
  rcases h with h | h <;> subst h <;> rfl

/-- Claim C7, witness: the fallback on an LLM failure and on unparseable
output, at a concrete prompt. -/
theorem claim_c7_witness :
    createPlan "hello" [] (Except.error ()) = fallbackPlan "hello"
    ∧ createPlan "hello" [] (Except.ok none) = fallbackPlan "hello" :=
  ⟨(claim_c7 "hello" [] (Except.error ())).1 (Or.inl rfl),
   (claim_c7 "hello" [] (Except.ok none)).1 (Or.inr rfl)⟩

/-- Claim C4: for every catalogued tool and every caller role outside its
required roles, `executeTool` returns an error `ToolCall` carrying exactly
the permission-denied message, `durationMs = 0` and `finishedAt` set,
without invoking any backing connector (the call log is empty, for every
connector environment); and the reasoning loop continues after an executed
tool call. -/
theorem claim_c4 (env : String → Except String String) (role : Role) (name : String)
    (args : Args) (now elapsed : Nat) (t : MCPTool)
    (hfind : toolDefinitions.find? (fun x => x.name == name) = some t)
    (hrole : t.permissionRequired.contains role = false) :
    executeTool env role name args now elapsed =
      ({ toolName := name, args := args, status := .error, result := none,
         error := some ("Permission denied: role \x27" ++ roleStr role ++
                        "\x27 cannot use tool \x27" ++ name ++ "\x27"),
         startedAt := now, finishedAt := some now, durationMs := some 0 }, [])
    ∧ (∀ (mcpEx regEx : ToolCallRequest → ToolCall) (llm : Nat → LLMResult)
         (c c2 : String) (reqs : List ToolCallRequest) (n : Nat),
         reqs ≠ [] → c2 ≠ "" → llm 0 = .ok c reqs → llm 1 = .ok c2 [] → 2 ≤ n →
         (agentRun llm mcpEx regEx n).finalResponse = c2) := by
  have hc : canUseTool role name = false := by
    simp [canUseTool, hfind, hrole]
  constructor
  · simp [executeTool, hc]
  · intro mcpEx regEx llm c c2 reqs n hreqs hc2 h0 h1 hn
    exact agentRun_continues mcpEx regEx llm c c2 reqs n hreqs hc2 h0 h1 hn

/-- Claim C4, witness: a readonly caller requesting `db_migrate` (required
roles: admin only) is denied with duration 0, and a loop whose second turn
is tool-less continues past the first turn's tool call. -/
theorem claim_c4_witness :
    executeTool envOk Role.readonly "db_migrate" [] 0 0 =
      ({ toolName := "db_migrate", args := [], status := .error, result := none,
         error := some "Permission denied: role \x27readonly\x27 cannot use tool \x27db_migrate\x27",
         startedAt := 0, finishedAt := some 0, durationMs := some 0 }, [])
    ∧ (agentRun llmTwoTurn exStub exStub 6).finalResponse = "done" :=
  ⟨(claim_c4 envOk Role.readonly "db_migrate" [] 0 0 dbMigrateDef rfl rfl).1,
   (claim_c4 envOk Role.readonly "db_migrate" [] 0 0 dbMigrateDef rfl rfl).2
     exStub exStub llmTwoTurn "" "done" [⟨"db_schema", []⟩] 6
     (by decide) (by decide) rfl rfl (by omega)⟩

/-- Claim C5, counterexample: the SQL text `... VALUES ({x1})` matches the
pattern the spec quotes (`{[A-Za-z_][A-Za-z0-9_]*}`), but the code's guard
regex (`{[a-zA-Z_]+}`, no digits) does not reject it: the query is
dispatched to the database and succeeds. -/
theorem claim_c5_counterexample :
    specPlaceholder sqlWithDigit.data = true
    ∧ hasPlaceholder sqlWithDigit.data = false
    ∧ (executeTool envOk Role.admin "db_query" [("sql", sqlWithDigit)] 0 0).1.status = .success
    ∧ (executeTool envOk Role.admin "db_query" [("sql", sqlWithDigit)] 0 0).2 =
        ["mcp__mysql__query"] :=
  ⟨rfl, rfl, rfl, rfl⟩

/-- Claim C5, amended: for a permitted role, a `db_query` whose SQL matches
the code's guard pattern (an opening brace, one or more `[a-zA-Z_]`
characters — digits are not part of the class — then a closing brace) is
rejected with the guard error, whose message mentions "placeholder",
without dispatching to the database; SQL not matching that pattern is
dispatched to the database backend. -/
theorem claim_c5 (env : String → Except String String) (role : Role) (args : Args)
    (sql : String) (now elapsed : Nat)
    (hrole : canUseTool role "db_query" = true)
    (hsql : args.lookup "sql" = some sql) :
    (hasPlaceholder sql.data = true →
       executeTool env role "db_query" args now elapsed =
         ({ toolName := "db_query", args := args, status := .error, result := none,
            error := some sqlGuardMsg, startedAt := now,
            finishedAt := some (now + elapsed), durationMs := some elapsed }, []))
    ∧ (hasPlaceholder sql.data = false →
        (executeTool env role "db_query" args now elapsed).2 = ["mcp__mysql__query"])
    ∧ hasSubstr sqlGuardMsg.data "placeholder".data = true := by
  refine ⟨?_, ?_, by decide⟩
  · intro hp
    simp [executeTool, hrole, dispatch, hsql, hp]
  · intro hp
    rcases henv : env "mcp__mysql__query" with e | r <;>
      simp [executeTool, hrole, dispatch, hsql, hp, henv]

/-- Claim C5, witness: a permitted caller sending `... VALUES ({gold})` is
rejected by the guard without any backing call. -/
theorem claim_c5_witness :
    executeTool envOk Role.admin "db_query" [("sql", sqlWithGold)] 0 0 =
      ({ toolName := "db_query", args := [("sql", sqlWithGold)], status := .error,
         result := none, error := some sqlGuardMsg, startedAt := 0,
         finishedAt := some 0, durationMs := some 0 }, []) :=
  (claim_c5 envOk Role.admin [("sql", sqlWithGold)] sqlWithGold 0 0 rfl rfl).1 rfl

/-- Claim C6, counterexample: a tool name absent from the catalog is
reported through the permission check, with the permission-denied message —
not with the "Unknown tool" error the claim states. -/
theorem claim_c6_counterexample :
    (executeTool envOk Role.admin "no_such_tool" [] 0 0).1.error =
      some "Permission denied: role \x27admin\x27 cannot use tool \x27no_such_tool\x27"
    ∧ (executeTool envOk Role.admin "no_such_tool" [] 0 0).1.error ≠ some "Unknown tool" := by
  refine ⟨rfl, ?_⟩
  decide

/-- Claim C6, amended: for every tool name not in the built-in catalog,
`executeTool` returns an error `ToolCall` whose message is the
permission-denied message (the unknown name falls through `canUseTool`, so
the dispatch-level `Unknown tool: <name>` error is unreachable through
`executeTool`), no backing connector is invoked, and the conversation
continues. -/
theorem claim_c6 (env : String → Except String String) (role : Role) (name : String)
    (args : Args) (now elapsed : Nat)
    (habs : toolDefinitions.find? (fun x => x.name == name) = none) :
    (executeTool env role name args now elapsed).1.status = .error
    ∧ (executeTool env role name args now elapsed).1.error =
        some ("Permission denied: role \x27" ++ roleStr role ++
              "\x27 cannot use tool \x27" ++ name ++ "\x27")
    ∧ (executeTool env role name args now elapsed).2 = []
    ∧ (∀ (mcpEx regEx : ToolCallRequest → ToolCall) (llm : Nat → LLMResult)
         (c c2 : String) (reqs : List ToolCallRequest) (n : Nat),
         reqs ≠ [] → c2 ≠ "" → llm 0 = .ok c reqs → llm 1 = .ok c2 [] → 2 ≤ n →
         (agentRun llm mcpEx regEx n).finalResponse = c2) := by
  have hc : canUseTool role name = false := by
    simp [canUseTool, habs]
  refine ⟨?_, ?_, ?_, ?_⟩
  · simp [executeTool, hc]
  · simp [executeTool, hc]
  · simp [executeTool, hc]
  · intro mcpEx regEx llm c c2 reqs n hreqs hc2 h0 h1 hn
    exact agentRun_continues mcpEx regEx llm c c2 reqs n hreqs hc2 h0 h1 hn

/-- Claim C6, witness: `web_scrape` has a dispatch case but is not in the
catalog, so it is denied by the permission check without any backing call. -/
theorem claim_c6_witness :
    (executeTool envOk Role.admin "web_scrape" [] 0 0).1.error =
      some "Permission denied: role \x27admin\x27 cannot use tool \x27web_scrape\x27"
    ∧ (executeTool envOk Role.admin "web_scrape" [] 0 0).2 = [] :=
  ⟨(claim_c6 envOk Role.admin "web_scrape" [] 0 0 rfl).2.1,
   (claim_c6 envOk Role.admin "web_scrape" [] 0 0 rfl).2.2.1⟩

theorem str_data_append (s t : String) : (s ++ t).data = s.data ++ t.data := by
  cases s
  cases t
  rfl

theorem str_mk_data (s : String) : String.mk s.data = s := by
  cases s
  rfl

theorem take_len_append {α : Type} (l m : List α) : (l ++ m).take l.length = l := by
  induction l with
  | nil => rfl
  | cons a l ih => simp [ih]

theorem drop_len_append {α : Type} (l m : List α) : (l ++ m).drop l.length = m := by
  induction l with
  | nil => rfl
  | cons a l ih => simp [ih]

theorem startsWithL_nil (l : List Char) : startsWithL l [] = true := by
  cases l <;> rfl

theorem startsWithL_append (p l : List Char) : startsWithL (p ++ l) p = true := by
  induction p with
  | nil => exact startsWithL_nil l
  | cons c p ih => simp [startsWithL, ih]

theorem idxDunder_append (t : List Char) :
    ∀ s : List Char, hasDunderL s = false → s.getLast? ≠ some '_' →
      idxDunder (s ++ '_' :: '_' :: t) = some s.length := by
  intro s
  induction s with
  | nil =>
    intro _ _
    simp [idxDunder]
  | cons c s ih =>
    intro hnd hlast
    have hnd2 : ((c == '_' && s.head? == some '_') || hasDunderL s) = false := hnd
    have h1 : (c == '_' && s.head? == some '_') = false := by
      cases hb : (c == '_' && s.head? == some '_')
      · rfl
      · rw [hb] at hnd2
        simp at hnd2
    have h2 : hasDunderL s = false := by
      cases hb : hasDunderL s
      · rfl
      · rw [hb] at hnd2
        simp at hnd2
    show idxDunder (c :: (s ++ '_' :: '_' :: t)) = some (s.length + 1)
    rw [idxDunder]
    rw [if_neg]
    · cases s with
      | nil =>
        rw [ih h2 (by simp)]
        rfl
      | cons d s2 =>
        have hlast2 : (d :: s2).getLast? ≠ some '_' := by
          rw [List.getLast?_cons_cons] at hlast
          exact hlast
        rw [ih h2 hlast2]
        rfl
    · intro hcond
      cases s with
      | nil =>
        have : c ≠ '_' := by
          intro hc
          exact hlast (by simp [hc])
        exact this hcond.1
      | cons d s2 =>
        simp only [List.cons_append, List.head?_cons] at hcond
        have hd : d = '_' := by
          have := hcond.2
          injection this
        rw [hcond.1, hd] at h1
        simp at h1

theorem mcpFullName_data (s t : String) :
    (mcpFullName s t).data = "mcp__".data ++ (s.data ++ '_' :: '_' :: t.data) := by
  show ((("mcp__" ++ s) ++ "__") ++ t).data = _
  rw [str_data_append, str_data_append, str_data_append]
  rw [List.append_assoc, List.append_assoc]
  rfl

theorem mcpParse_full (s t : String) (hnd : hasDunderL s.data = false)
    (hlast : s.data.getLast? ≠ some '_') :
    mcpParse (mcpFullName s t) = some (s, t) := by
  have hdrop : (mcpFullName s t).data.drop 5 = s.data ++ '_' :: '_' :: t.data := by
    rw [mcpFullName_data]
    have h5 : ("mcp__" : String).data.length = 5 := rfl
    rw [← h5, drop_len_append]
  rw [mcpParse]
  simp only [hdrop, idxDunder_append t.data s.data hnd hlast]
  have htake : (s.data ++ '_' :: '_' :: t.data).take s.data.length = s.data :=
    take_len_append s.data _
  have hdrop2 : (s.data ++ '_' :: '_' :: t.data).drop (s.data.length + 2) = t.data := by
    have : s.data ++ '_' :: '_' :: t.data = (s.data ++ ['_', '_']) ++ t.data := by
      rw [List.append_assoc]
      rfl
    rw [this]
    have hlen : (s.data ++ ['_', '_']).length = s.data.length + 2 := by
      simp
    rw [← hlen, drop_len_append]
  rw [htake, hdrop2, str_mk_data, str_mk_data]

/-- Claim C3, counterexample: the server id `a_` contains no `__`, yet for
tool `b` the executor does not call `b` on the client for `a_`: the first
`__` of `a___b` is found one character early, the parse yields server `a`
and tool `_b`, and the call fails against the connected server `a_`. -/
theorem claim_c3_counterexample :
    hasDunderL ("a_" : String).data = false
    ∧ mcpExecute [("a_", true)] (mcpFullName "a_" "b") ≠ Except.ok ("a_", "b")
    ∧ mcpExecute [("a_", true)] (mcpFullName "a_" "b") =
        Except.error "MCP server \x27a\x27 is not connected" := by
  refine ⟨rfl, ?_, rfl⟩
  intro h
  rw [show mcpExecute [("a_", true)] (mcpFullName "a_" "b") =
        Except.error "MCP server \x27a\x27 is not connected" from rfl] at h
  exact Except.noConfusion h

/-- Claim C3, amended: tool names starting with `mcp__` are dispatched to
the external-server manager and all others to the built-in registry; and
for every server id `s` that contains no `__` *and does not end in `_`*,
and every tool name `t` (which may contain `__`), the manager parses
`mcp__<s>__<t>` into `(s, t)`, calls `t` on the client for `s` when that
server is connected, and fails with the not-connected error otherwise. -/
theorem claim_c3 (s t : String) (clients : List (String × Bool))
    (hnd : hasDunderL s.data = false) (hlast : s.data.getLast? ≠ some '_') :
    routeIsMcp (mcpFullName s t) = true
    ∧ (∀ (mcpEx regEx : ToolCallRequest → ToolCall) (r : ToolCallRequest),
         (routeIsMcp r.name = true → execRequest mcpEx regEx r = mcpEx r)
         ∧ (routeIsMcp r.name = false → execRequest mcpEx regEx r = regEx r))
    ∧ mcpParse (mcpFullName s t) = some (s, t)
    ∧ (lookupClient clients s = some true →
         mcpExecute clients (mcpFullName s t) = .ok (s, t))
    ∧ (∀ st : Option Bool, lookupClient clients s = st → st ≠ some true →
         mcpExecute clients (mcpFullName s t) =
           .error ("MCP server \x27" ++ s ++ "\x27 is not connected")) := by
  refine ⟨?_, ?_, mcpParse_full s t hnd hlast, ?_, ?_⟩
  · rw [routeIsMcp, mcpFullName_data]
    exact startsWithL_append _ _
  · intro mcpEx regEx r
    constructor
    · intro h
      rw [execRequest, if_pos h]
    · intro h
      rw [execRequest, if_neg (by rw [h]; exact Bool.false_ne_true)]
  · intro hcl
    simp [mcpExecute, mcpParse_full s t hnd hlast, hcl]
  · intro st hst hne
    rcases st with _ | b
    · simp [mcpExecute, mcpParse_full s t hnd hlast, hst]
    · cases b
      · simp [mcpExecute, mcpParse_full s t hnd hlast, hst]
      · exact absurd rfl hne

/-- Claim C3, witness: server `srv` (no `__`, not ending in `_`) with the
tool name `a__b` (containing `__`) parses back exactly, executes against a
connected client, and fails when the server is absent. -/
theorem claim_c3_witness :
    mcpParse (mcpFullName "srv" "a__b") = some ("srv", "a__b")
    ∧ mcpExecute [("srv", true)] (mcpFullName "srv" "a__b") = Except.ok ("srv", "a__b")
    ∧ mcpExecute [] (mcpFullName "srv" "a__b") =
        Except.error "MCP server \x27srv\x27 is not connected" :=
  ⟨(claim_c3 "srv" "a__b" [] (by decide) (by decide)).2.2.1,
   (claim_c3 "srv" "a__b" [("srv", true)] (by decide) (by decide)).2.2.2.1 rfl,
   (claim_c3 "srv" "a__b" [] (by decide) (by decide)).2.2.2.2 none rfl (by decide)⟩

theorem loopAux_roundTrips_le (llm : Nat → LLMResult) (mcpEx regEx : ToolCallRequest → ToolCall) :
    ∀ (fuel iter : Nat), (loopAux llm mcpEx regEx iter fuel).roundTrips ≤ fuel := by
  intro fuel
  induction fuel with
  | zero => intro iter; exact Nat.le_refl 0
  | succ fuel ih =>
    intro iter
    rcases hllm : llm iter with m | ⟨content, reqs⟩
    · show (loopAux llm mcpEx regEx iter (fuel + 1)).roundTrips ≤ fuel + 1
      simp only [loopAux, hllm]
      omega
    · rcases reqs with _ | ⟨r, rs⟩
      · simp only [loopAux, hllm]
        omega
      · simp only [loopAux, hllm]
        exact Nat.succ_le_succ (ih (iter + 1))

theorem loopAux_final_empty (llm : Nat → LLMResult) (mcpEx regEx : ToolCallRequest → ToolCall) :
    ∀ (fuel iter : Nat),
      (∀ i : Nat, i < fuel → hasTools (llm (iter + i)) = true) →
      (loopAux llm mcpEx regEx iter fuel).finalResponse = "" := by
  intro fuel
  induction fuel with
  | zero => intro iter _; rfl
  | succ fuel ih =>
    intro iter h
    have h0 : hasTools (llm iter) = true := by
      have := h 0 (Nat.succ_pos fuel)
      simpa using this
    rcases hllm : llm iter with m | ⟨content, reqs⟩
    · rw [hllm] at h0
      simp [hasTools] at h0
    · rcases reqs with _ | ⟨r, rs⟩
      · rw [hllm] at h0
        simp [hasTools] at h0
      · have hrec := ih (iter + 1) (fun i hi => by
          have hx := h (i + 1) (Nat.succ_lt_succ hi)
          have e : iter + (i + 1) = iter + 1 + i := by omega
          rw [e] at hx
          exact hx)
        simp only [loopAux, hllm]
        exact hrec

theorem loopAux_count (llm : Nat → LLMResult) (mcpEx regEx : ToolCallRequest → ToolCall) :
    ∀ (fuel iter : Nat),
      (∀ i : Nat, i < fuel → numTools (llm (iter + i)) = 1) →
      (loopAux llm mcpEx regEx iter fuel).toolCalls.length = fuel := by
  intro fuel
  induction fuel with
  | zero => intro iter _; rfl
  | succ fuel ih =>
    intro iter h
    have h0 : numTools (llm iter) = 1 := by
      have := h 0 (Nat.succ_pos fuel)
      simpa using this
    rcases hllm : llm iter with m | ⟨content, reqs⟩
    · rw [hllm] at h0
      simp [numTools] at h0
    · rcases reqs with _ | ⟨r, rs⟩
      · rw [hllm] at h0
        simp [numTools] at h0
      · have hlen : rs.length + 1 = 1 := by
          rw [hllm] at h0
          simpa [numTools] using h0
        have hrec := ih (iter + 1) (fun i hi => by
          have hx := h (i + 1) (Nat.succ_lt_succ hi)
          have e : iter + (i + 1) = iter + 1 + i := by omega
          rw [e] at hx
          exact hx)
        simp only [loopAux]
        rw [hllm]
        simp only [List.length_append, List.length_map, List.length_cons, hrec]
        omega

/-- Claim C1: every run performs at most `maxIterations` LLM round trips;
if every turn within the cap requests at least one tool call, the final
response is the `Completed <k> tool operations...` fallback with `k` the
number of executed calls in the timeline; an LLM emitting exactly one tool
call per turn yields exactly `maxIterations` tool calls; and the default
iteration cap is 6. -/
theorem claim_c1 (llm : Nat → LLMResult) (mcpEx regEx : ToolCallRequest → ToolCall) (n : Nat) :
    (agentRun llm mcpEx regEx n).roundTrips ≤ n
    ∧ ((∀ i : Nat, i < n → hasTools (llm i) = true) →
        (agentRun llm mcpEx regEx n).finalResponse =
          completedMsg (agentRun llm mcpEx regEx n).toolCalls.length)
    ∧ ((∀ i : Nat, i < n → numTools (llm i) = 1) →
        (agentRun llm mcpEx regEx n).toolCalls.length = n)
    ∧ defaultMaxIterations = 6 := by
  refine ⟨?_, ?_, ?_, rfl⟩
  · show (loopAux llm mcpEx regEx 0 n).roundTrips ≤ n
    exact loopAux_roundTrips_le llm mcpEx regEx n 0
  · intro h
    have hfr : (loopAux llm mcpEx regEx 0 n).finalResponse = "" :=
      loopAux_final_empty llm mcpEx regEx n 0 (fun i hi => by simpa using h i hi)
    show (if (loopAux llm mcpEx regEx 0 n).finalResponse = "" then _ else _) = _
    rw [hfr, if_pos rfl]
    rfl
  · intro h
    show (loopAux llm mcpEx regEx 0 n).toolCalls.length = n
    exact loopAux_count llm mcpEx regEx n 0 (fun i hi => by simpa using h i hi)

/-- Claim C1, witness: with an LLM that always emits one tool call and cap
3, the run does exactly 3 round trips, 3 tool calls, and ends with the
`Completed 3 tool operations...` fallback. -/
theorem claim_c1_witness :
    (agentRun llmOneTool exStub exStub 3).finalResponse =
      completedMsg (agentRun llmOneTool exStub exStub 3).toolCalls.length
    ∧ (agentRun llmOneTool exStub exStub 3).toolCalls.length = 3
    ∧ (agentRun llmOneTool exStub exStub 3).roundTrips ≤ 3 :=
  ⟨(claim_c1 llmOneTool exStub exStub 3).2.1 (fun _ _ => rfl),
   (claim_c1 llmOneTool exStub exStub 3).2.2.1 (fun _ _ => rfl),
   (claim_c1 llmOneTool exStub exStub 3).1⟩

theorem runSeq_messages (rs : List RunSpec) :
    ∀ s : SessionMemory, (runSeq s rs).messages = s.messages ++ (rs.map runPair).flatten := by
  induction rs with
  | nil => intro s; simp [runSeq]
  | cons r rs ih =>
    intro s
    rw [runSeq, ih (runOnSession s r)]
    show (s.messages ++ runPair r) ++ (rs.map runPair).flatten = _
    rw [List.append_assoc]
    rfl

theorem runSeq_createdAt (rs : List RunSpec) :
    ∀ s : SessionMemory, (runSeq s rs).createdAt = s.createdAt := by
  induction rs with
  | nil => intro s; rfl
  | cons r rs ih => intro s; exact ih (runOnSession s r)

theorem updTrace_eq (rs : List RunSpec) :
    ∀ s : SessionMemory, updTrace s rs = rs.map (·.tEnd) := by
  induction rs with
  | nil => intro s; rfl
  | cons r rs ih =>
    intro s
    simp only [updTrace, List.map_cons]
    exact congrArg _ (ih (runOnSession s r))

theorem chain_le_all (l : List Nat) :
    ∀ a : Nat, List.Chain (· ≤ ·) a l → ∀ x ∈ l, a ≤ x := by
  induction l with
  | nil => intro a _ x hx; cases hx
  | cons b l ih =>
    intro a hch x hx
    rcases List.chain_cons.mp hch with ⟨hab, hch2⟩
    rcases List.mem_cons.mp hx with rfl | hx2
    · exact hab
    · exact le_trans hab (ih b hch2 x hx2)

/-- Claim C2: session messages are strictly append-only — one run appends
exactly the user message (at its start) and one assistant message (at its
end), and a sequence of runs appends every user/assistant pair in order,
leaving `createdAt` unchanged; `updatedAt` is set to each run's end clock,
so under a monotone clock it is non-decreasing and stays at or above
`createdAt`. -/
theorem claim_c2 (s : SessionMemory) (rs : List RunSpec) :
    (runSeq s rs).messages = s.messages ++ (rs.map runPair).flatten
    ∧ (∀ r : RunSpec,
         (runOnSession s r).messages = s.messages ++ runPair r
         ∧ (runPair r).length = 2
         ∧ (runPair r).map (·.role) = ["user", "assistant"])
    ∧ (runSeq s rs).createdAt = s.createdAt
    ∧ updTrace s rs = rs.map (·.tEnd)
    ∧ (List.Chain (· ≤ ·) s.updatedAt (rs.map (·.tEnd)) →
        List.Chain (· ≤ ·) s.updatedAt (updTrace s rs)
        ∧ (s.createdAt ≤ s.updatedAt →
            ∀ x ∈ updTrace s rs, (runSeq s rs).createdAt ≤ x)) := by
  refine ⟨runSeq_messages rs s, ?_, runSeq_createdAt rs s, updTrace_eq rs s, ?_⟩
  · intro r
    exact ⟨rfl, rfl, rfl⟩
  · intro hch
    constructor
    · rw [updTrace_eq rs s]
      exact hch
    · intro hcr x hx
      rw [updTrace_eq rs s] at hx
      rw [runSeq_createdAt rs s]
      exact le_trans hcr (chain_le_all _ s.updatedAt hch x hx)

/-- Claim C2, witness: a fresh session (clock 5) followed by one run (user
at 6, assistant at 7) has exactly the user/assistant pair appended and
every `updatedAt` value at or above `createdAt`. -/
theorem claim_c2_witness :
    (runSeq sessionW [runSpecW]).messages = sessionW.messages ++ ([runSpecW].map runPair).flatten
    ∧ (∀ x ∈ updTrace sessionW [runSpecW], (runSeq sessionW [runSpecW]).createdAt ≤ x) :=
  ⟨(claim_c2 sessionW [runSpecW]).1,
   ((claim_c2 sessionW [runSpecW]).2.2.2.2
      (List.chain_cons.mpr ⟨by decide, List.Chain.nil⟩)).2 (by decide)⟩

/-- Claim C9, counterexample: for a run whose total duration is 50 ms
(start clock 0, end clock 50), the three agent logs carry timestamps
0, 100, 50 — the executor's timestamp is the hardcoded `startTime + 100` —
which are not monotonically non-decreasing. -/
theorem claim_c9_counterexample :
    ((orchestratorRun (.error ()) (fun _ => .err "boom") exStub exStub (.error ())
        "p" 0 50).agentLogs.map (·.agentType)) = ["planner", "executor", "reviewer"]
    ∧ ((orchestratorRun (.error ()) (fun _ => .err "boom") exStub exStub (.error ())
        "p" 0 50).agentLogs.map (·.timestamp)) = [0, 100, 50]
    ∧ ¬ List.Chain' (· ≤ ·)
        ((orchestratorRun (.error ()) (fun _ => .err "boom") exStub exStub (.error ())
          "p" 0 50).agentLogs.map (·.timestamp)) := by
  refine ⟨rfl, rfl, ?_⟩
  intro h
  rw [show ((orchestratorRun (.error ()) (fun _ => .err "boom") exStub exStub (.error ())
        "p" 0 50).agentLogs.map (·.timestamp)) = [0, 100, 50] from rfl] at h
  simp [List.chain'_cons] at h

/-- Claim C9, amended: the orchestrator's `agentLogs` always has exactly
three entries, in the order planner, executor, reviewer, with timestamps
`startTime`, `startTime + 100` (a hardcoded offset) and the completion
clock `endTime`; these are monotonically non-decreasing precisely when the
run takes at least 100 ms (`startTime + 100 ≤ endTime`), and a faster run
violates monotonicity. -/
theorem claim_c9 (planLlm reviewLlm : Except Unit (Option JSON)) (loopLlm : Nat → LLMResult)
    (mcpEx regEx : ToolCallRequest → ToolCall) (prompt : String) (startTime endTime : Nat) :
    ((orchestratorRun planLlm loopLlm mcpEx regEx reviewLlm prompt startTime
        endTime).agentLogs.map (·.agentType)) = ["planner", "executor", "reviewer"]
    ∧ (orchestratorRun planLlm loopLlm mcpEx regEx reviewLlm prompt startTime
        endTime).agentLogs.length = 3
    ∧ ((orchestratorRun planLlm loopLlm mcpEx regEx reviewLlm prompt startTime
        endTime).agentLogs.map (·.timestamp)) = [startTime, startTime + 100, endTime]
    ∧ (startTime + 100 ≤ endTime →
        List.Chain' (· ≤ ·)
          ((orchestratorRun planLlm loopLlm mcpEx regEx reviewLlm prompt startTime
            endTime).agentLogs.map (·.timestamp))) := by
  refine ⟨rfl, rfl, rfl, ?_⟩
  intro h
  show List.Chain' (· ≤ ·) [startTime, startTime + 100, endTime]
  simp [List.chain'_cons]
  omega

/-- Claim C9, witness: a run taking exactly 150 ms has monotone log
timestamps. -/
theorem claim_c9_witness :
    List.Chain' (· ≤ ·)
      ((orchestratorRun (.error ()) (fun _ => .err "boom") exStub exStub (.error ())
        "p" 0 150).agentLogs.map (·.timestamp)) :=
  (claim_c9 (.error ()) (.error ()) (fun _ => .err "boom") exStub exStub "p" 0 150).2.2.2
    (by omega)
